import Mathlib

/-!
Shallow embedding of the `gaze` port monitor's reconciliation and history
engine (package `history`, file `src/internal/scanner/scanner.go`) and of the
active-port sorting of the presentation layer (`src/internal/ui/ui.go`).

Modelling conventions:
* Go `time.Time` timestamps and `time.Duration` values are embedded as `Int`
  (an injected clock: every operation that calls `time.Now()` in Go takes an
  explicit `now : Int` argument).
* Go `map[int]*PortHistory` is embedded as an association list
  `List (Int × PortHistory)` with unique keys; `delete` is key-filtering and
  map assignment is replace-or-append.  Go's map iteration order is
  unspecified; the embedding iterates in first-insertion order, and every
  theorem below is insensitive to that choice.
* Go `sort.Slice` (pdqsort) runs a plain insertion sort on ranges shorter
  than 12 elements; the embedding `sortSlice` is that insertion sort, which
  is exact for every input considered in the theorems below.
* The `float64` fields `CPUPercent`/`MemoryMB` of `scanner.PortInfo` are not
  modelled: they are never read by the tracker, the sort, or any claim.
-/

namespace Gaze

/-- Embeds `scanner.PortInfo` (the per-scan observation record). -/
structure PortInfo where
  port : Int
  pid : Int
  process : String
  status : String
  httpStatus : Int
  latency : Int
  selected : Bool
deriving DecidableEq

/-- Embeds `history.EventType` (`EventPortOpened` / `EventPortClosed`). -/
inductive EventType where
  | opened
  | closed
deriving DecidableEq

/-- Embeds `history.PortEvent`. -/
structure PortEvent where
  port : Int
  pid : Int
  process : String
  eventType : EventType
  timestamp : Int
deriving DecidableEq

/-- Embeds `history.PortHistory`. -/
structure PortHistory where
  port : Int
  pid : Int
  process : String
  firstSeen : Int
  lastSeen : Int
  isActive : Bool
  openCount : Int
  events : List PortEvent
deriving DecidableEq

/-- Embeds `history.Tracker`.  The Go `history` field is a
`map[int]*PortHistory`, embedded as an association list with unique keys. -/
structure Tracker where
  history : List (Int × PortHistory)
  events : List PortEvent
  maxEvents : Nat
  maxHistories : Nat
deriving DecidableEq

/-- Go map read `m[k]` on an association list. -/
def lookupKey {α : Type} : List (Int × α) → Int → Option α
  | [], _ => none
  | e :: rest, k => if e.1 = k then some e.2 else lookupKey rest k

/-- Replace the value stored at key `k` (key already present). -/
def setKey {α : Type} : List (Int × α) → Int → α → List (Int × α)
  | [], _, _ => []
  | e :: rest, k, v => if e.1 = k then (k, v) :: rest else e :: setKey rest k v

/-- Go map assignment `m[k] = v`: replace if present, append otherwise. -/
def mapInsert {α : Type} (m : List (Int × α)) (k : Int) (v : α) : List (Int × α) :=
  if (lookupKey m k).isSome then setKey m k v else m ++ [(k, v)]

/-- Embeds `history.NewTracker`. -/
def NewTracker (maxEvents maxHistories : Nat) : Tracker :=
  { history := [], events := [], maxEvents := maxEvents, maxHistories := maxHistories }

/-- Embeds `(*Tracker).addEvent`: append to the global event log, then trim
to the most recent `maxEvents` entries when the cap is exceeded. -/
def Tracker.addEvent (t : Tracker) (event : PortEvent) : Tracker :=
  let evs := t.events ++ [event]
  if evs.length > t.maxEvents then
    { t with events := evs.drop (evs.length - t.maxEvents) }
  else
    { t with events := evs }

/-- Embeds one iteration of the first loop of `(*Tracker).Update` (the
"check for newly opened ports" pass) for one entry of `currentPortMap`. -/
def Tracker.stepOpen (now : Int) (t : Tracker) (entry : Int × PortInfo) : Tracker :=
  let port := entry.1
  let info := entry.2
  match lookupKey t.history port with
  | some h =>
    if h.isActive then
      { t with history := setKey t.history port { h with lastSeen := now } }
    else
      let event : PortEvent :=
        { port := port
          pid := info.pid
          process := info.process
          eventType := EventType.opened
          timestamp := now }
      let h' :=
        { h with
          lastSeen := now
          isActive := true
          openCount := h.openCount + 1
          events := h.events ++ [event] }
      ({ t with history := setKey t.history port h' }).addEvent event
  | none =>
    let event : PortEvent :=
      { port := port
        pid := info.pid
        process := info.process
        eventType := EventType.opened
        timestamp := now }
    let h : PortHistory :=
      { port := port
        pid := info.pid
        process := info.process
        firstSeen := now
        lastSeen := now
        isActive := true
        openCount := 1
        events := [event] }
    ({ t with history := mapInsert t.history port h }).addEvent event

/-- Embeds one iteration of the second loop of `(*Tracker).Update` (the
"check for closed ports" pass) for one key of the history map. -/
def Tracker.stepClose (now : Int) (currentPortMap : List (Int × PortInfo))
    (t : Tracker) (port : Int) : Tracker :=
  match lookupKey t.history port with
  | some h =>
    if h.isActive && (lookupKey currentPortMap port).isNone then
      let event : PortEvent :=
        { port := port
          pid := h.pid
          process := h.process
          eventType := EventType.closed
          timestamp := now }
      let h' :=
        { h with
          isActive := false
          lastSeen := now
          events := h.events ++ [event] }
      ({ t with history := setKey t.history port h' }).addEvent event
    else t
  | none => t

/-- The deletion loop of `(*Tracker).cleanup`: `delete(t.history, k)` for the
listed keys, in order. -/
def removeKeys {α : Type} (s : List (Int × α)) (ks : List Int) : List (Int × α) :=
  ks.foldl (fun s k => s.filter fun e => decide (e.1 ≠ k)) s

/-- One bubble-left step of Go's insertion sort, on a reversed prefix (head =
rightmost element): the new element `x` moves left past `y` while `less x y`. -/
def insertRev {α : Type} (less : α → α → Bool) (x : α) : List α → List α
  | [] => [x]
  | y :: ys => if less x y then y :: insertRev less x ys else x :: y :: ys

/-- Embeds Go's `sort.Slice` as run on ranges shorter than 12 elements:
pdqsort dispatches such ranges to plain insertion sort. -/
def sortSlice {α : Type} (less : α → α → Bool) (l : List α) : List α :=
  (l.foldl (fun acc x => insertRev less x acc) []).reverse

/-- Embeds `(*Tracker).cleanup`: when over the history cap, sort the inactive
records by `lastSeen` ascending and delete the oldest until the cap is met or
no inactive records remain. -/
def Tracker.cleanup (t : Tracker) : Tracker :=
  if t.history.length ≤ t.maxHistories then t
  else
    let inactive := t.history.filter fun e => !e.2.isActive
    let sorted := sortSlice (fun a b => decide (a.2.lastSeen < b.2.lastSeen)) inactive
    let toRemove := t.history.length - t.maxHistories
    let victims := (sorted.map Prod.fst).take toRemove
    { t with history := removeKeys t.history victims }

/-- Embeds `(*Tracker).Update`: build the per-port lookup of the new
observations, run the open pass, the close pass, then `cleanup`. -/
def Tracker.update (t : Tracker) (currentPorts : List PortInfo) (now : Int) : Tracker :=
  let currentPortMap := currentPorts.foldl (fun m p => mapInsert m p.port p) []
  let t1 := currentPortMap.foldl (Tracker.stepOpen now) t
  let t2 := (t1.history.map Prod.fst).foldl (Tracker.stepClose now currentPortMap) t1
  t2.cleanup

/-- Embeds `(*Tracker).GetUptime` (`time.Since(h.FirstSeen)` with the injected
clock `now`). -/
def Tracker.getUptime (t : Tracker) (port : Int) (now : Int) : Int :=
  match lookupKey t.history port with
  | some h => if h.isActive then now - h.firstSeen else 0
  | none => 0

/-- Embeds `ui.SortColumn` (`SortByPort`, `SortByPID`, `SortByProcess`). -/
inductive SortColumn where
  | byPort
  | byPID
  | byProcess
deriving DecidableEq

/-- Go's `<` on strings: lexicographic on the UTF-8 bytes, which orders
strings exactly as the lexicographic order on their code points (UTF-8 is
order-preserving); embedded on the character list. -/
def charsLt : List Char → List Char → Bool
  | [], [] => false
  | [], _ :: _ => true
  | _ :: _, [] => false
  | a :: as, b :: bs => if a < b then true else if b < a then false else charsLt as bs

/-- Embeds the comparison closure of `(*Model).sortPorts`: the chosen column's
`<`, negated when the sort direction is descending. -/
def sortLess (col : SortColumn) (asc : Bool) (a b : PortInfo) : Bool :=
  let less :=
    match col with
    | SortColumn.byPort => decide (a.port < b.port)
    | SortColumn.byPID => decide (a.pid < b.pid)
    | SortColumn.byProcess => charsLt a.process.data b.process.data
  if !asc then !less else less

/-- Embeds `(*Model).sortPorts`: `sort.Slice` of the current port list under
`sortLess`. -/
def sortPorts (col : SortColumn) (asc : Bool) (ports : List PortInfo) : List PortInfo :=
  sortSlice (sortLess col asc) ports

/-- Modelled from the spec (§4.4): the timestamp of the most recent `Opened`
event of a record, "obtainable by scanning `events` backward for the latest
`Opened`".  This is the spec's corrected uptime contract, stated here only to
be compared with the code's `GetUptime`; no code in the repository computes it. -/
def lastOpenedTimestamp (events : List PortEvent) : Option Int :=
  (events.reverse.find? fun e => decide (e.eventType = EventType.opened)).map
    PortEvent.timestamp

/-- An observation as `ScanPorts` produces it (status is always `"LISTEN"`),
used as concrete input for the theorems below. -/
def obs (port pid : Int) (process : String) : PortInfo :=
  { port := port
    pid := pid
    process := process
    status := "LISTEN"
    httpStatus := 0
    latency := 0
    selected := false }

/-- Concrete run of three reconciliation cycles on port 80: opened at time 0,
closed at time 10, reopened at time 20. -/
def reopenTrace : Tracker :=
  (((NewTracker 100 100).update [obs 80 1 "nginx"] 0).update [] 10).update
    [obs 80 2 "nginx"] 20

/-- A concrete inactive history record (closed at time 3). -/
def inactiveRecord : PortHistory :=
  { port := 2
    pid := 0
    process := "b"
    firstSeen := 0
    lastSeen := 3
    isActive := false
    openCount := 1
    events := [] }

/-- A concrete active history record. -/
def activeRecord : PortHistory :=
  { port := 1
    pid := 4
    process := "a"
    firstSeen := 0
    lastSeen := 5
    isActive := true
    openCount := 1
    events := [] }

/-- A concrete older inactive history record (closed at time 1). -/
def oldInactiveRecord : PortHistory :=
  { port := 3
    pid := 0
    process := "c"
    firstSeen := 0
    lastSeen := 1
    isActive := false
    openCount := 1
    events := [] }

/-- A tracker over the history cap: three records, cap 1. -/
def sampleTracker : Tracker :=
  { history := [(1, activeRecord), (2, inactiveRecord), (3, oldInactiveRecord)]
    events := []
    maxEvents := 10
    maxHistories := 1 }

/-- A concrete event for witnesses. -/
def sampleEvent : PortEvent :=
  { port := 80
    pid := 1
    process := "x"
    eventType := EventType.opened
    timestamp := 0 }

/-! ### Preservation lemmas for the event log and tracker fields -/

theorem addEvent_history (t : Tracker) (e : PortEvent) :
    (t.addEvent e).history = t.history := by
  unfold Tracker.addEvent; dsimp only; split <;> rfl

theorem addEvent_maxEvents (t : Tracker) (e : PortEvent) :
    (t.addEvent e).maxEvents = t.maxEvents := by
  unfold Tracker.addEvent; dsimp only; split <;> rfl

theorem addEvent_maxHistories (t : Tracker) (e : PortEvent) :
    (t.addEvent e).maxHistories = t.maxHistories := by
  unfold Tracker.addEvent; dsimp only; split <;> rfl

theorem addEvent_length_le (t : Tracker) (e : PortEvent) :
    (t.addEvent e).events.length ≤ t.maxEvents := by
  unfold Tracker.addEvent
  dsimp only
  split
  next h => simp only [List.length_drop]; omega
  next h => simp only [List.length_append, List.length_cons, List.length_nil] at h ⊢; omega

theorem addEvent_suffix (t : Tracker) (e : PortEvent) :
    List.IsSuffix (t.addEvent e).events (t.events ++ [e]) := by
  unfold Tracker.addEvent
  dsimp only
  split
  · exact List.drop_suffix _ _
  · exact List.suffix_refl _

theorem cleanup_events (t : Tracker) : t.cleanup.events = t.events := by
  unfold Tracker.cleanup; split <;> rfl

theorem cleanup_maxEvents (t : Tracker) : t.cleanup.maxEvents = t.maxEvents := by
  unfold Tracker.cleanup; split <;> rfl

theorem cleanup_maxHistories (t : Tracker) : t.cleanup.maxHistories = t.maxHistories := by
  unfold Tracker.cleanup; split <;> rfl

theorem stepOpen_events_inv (now : Int) (m : Nat) (t : Tracker) (entry : Int × PortInfo)
    (h : t.maxEvents = m ∧ t.events.length ≤ m) :
    (Tracker.stepOpen now t entry).maxEvents = m ∧
      (Tracker.stepOpen now t entry).events.length ≤ m := by
  unfold Tracker.stepOpen
  dsimp only
  split
  · split
    · exact h
    · refine ⟨by rw [addEvent_maxEvents]; exact h.1, ?_⟩
      exact le_trans (addEvent_length_le _ _) (le_of_eq h.1)
  · refine ⟨by rw [addEvent_maxEvents]; exact h.1, ?_⟩
    exact le_trans (addEvent_length_le _ _) (le_of_eq h.1)

theorem stepClose_events_inv (now : Int) (pm : List (Int × PortInfo)) (m : Nat)
    (t : Tracker) (port : Int) (h : t.maxEvents = m ∧ t.events.length ≤ m) :
    (Tracker.stepClose now pm t port).maxEvents = m ∧
      (Tracker.stepClose now pm t port).events.length ≤ m := by
  unfold Tracker.stepClose
  dsimp only
  split
  · split
    · refine ⟨by rw [addEvent_maxEvents]; exact h.1, ?_⟩
      exact le_trans (addEvent_length_le _ _) (le_of_eq h.1)
    · exact h
  · exact h

theorem foldl_tracker_inv {α : Type} {P : Tracker → Prop} (f : Tracker → α → Tracker)
    (hf : ∀ t a, P t → P (f t a)) (l : List α) (t : Tracker) (h : P t) :
    P (l.foldl f t) := by
  induction l generalizing t with
  | nil => exact h
  | cons x xs ih => exact ih _ (hf _ _ h)

theorem update_events_bound (t : Tracker) (ps : List PortInfo) (now : Int)
    (h : t.events.length ≤ t.maxEvents) :
    (t.update ps now).events.length ≤ t.maxEvents := by
  unfold Tracker.update
  dsimp only
  have h1 : (List.foldl (Tracker.stepOpen now) t
        (ps.foldl (fun m p => mapInsert m p.port p) [])).maxEvents = t.maxEvents ∧
      (List.foldl (Tracker.stepOpen now) t
        (ps.foldl (fun m p => mapInsert m p.port p) [])).events.length ≤ t.maxEvents :=
    foldl_tracker_inv _ (fun s a hp => stepOpen_events_inv now t.maxEvents s a hp) _ t ⟨rfl, h⟩
  have h2 : (List.foldl
        (Tracker.stepClose now (ps.foldl (fun m p => mapInsert m p.port p) []))
        (List.foldl (Tracker.stepOpen now) t (ps.foldl (fun m p => mapInsert m p.port p) []))
        (List.map Prod.fst (List.foldl (Tracker.stepOpen now) t
          (ps.foldl (fun m p => mapInsert m p.port p) [])).history)).maxEvents = t.maxEvents ∧
      (List.foldl
        (Tracker.stepClose now (ps.foldl (fun m p => mapInsert m p.port p) []))
        (List.foldl (Tracker.stepOpen now) t (ps.foldl (fun m p => mapInsert m p.port p) []))
        (List.map Prod.fst (List.foldl (Tracker.stepOpen now) t
          (ps.foldl (fun m p => mapInsert m p.port p) [])).history)).events.length ≤ t.maxEvents :=
    foldl_tracker_inv _ (fun s a hp => stepClose_events_inv now _ t.maxEvents s a hp) _ _ h1
  rw [cleanup_events]
  exact h2.2

/-- C1: the uptime query for an active port is computed as `now - firstSeen`
(`time.Since(h.FirstSeen)`), not as `now` minus the timestamp of the port's
most recent `Opened` event.  On the trace where port 80 opens at 0, closes at
10 and reopens at 20, the code answers 30 at `now = 30`, while the claimed
contract (spec §4.4) demands `30 - 20 = 10`. -/
theorem c1_uptime_computed_from_firstSeen :
    reopenTrace.getUptime 80 30 = 30 ∧
    (lookupKey reopenTrace.history 80).map (fun h => lastOpenedTimestamp h.events) =
      some (some 20) ∧
    reopenTrace.getUptime 80 30 ≠ 30 - 20 := by
  refine ⟨by decide, by decide, by decide⟩

/-- C4: after every append to the global event log its length is at most
`maxEvents`, the surviving entries are a suffix (the most recent entries) of
the appended log, and the bound also holds immediately after a full
reconciliation cycle. -/
theorem c4_event_log_bounded (t : Tracker) (e : PortEvent) (ps : List PortInfo)
    (now : Int) (hb : t.events.length ≤ t.maxEvents) :
    (t.addEvent e).events.length ≤ t.maxEvents ∧
    List.IsSuffix (t.addEvent e).events (t.events ++ [e]) ∧
    (t.update ps now).events.length ≤ t.maxEvents :=
  ⟨addEvent_length_le t e, addEvent_suffix t e, update_events_bound t ps now hb⟩

/-- C4 witness: the bound at a concrete tracker with `maxEvents = 2`. -/
theorem c4_event_log_bounded_witness :
    ((NewTracker 2 7).addEvent sampleEvent).events.length ≤ 2 ∧
    List.IsSuffix ((NewTracker 2 7).addEvent sampleEvent).events
      ((NewTracker 2 7).events ++ [sampleEvent]) ∧
    ((NewTracker 2 7).update [obs 80 1 "a"] 3).events.length ≤ 2 :=
  c4_event_log_bounded (NewTracker 2 7) sampleEvent [obs 80 1 "a"] 3 (by decide)

/-- C10: the uptime query returns the zero duration both for a port with no
record in the history store and for a port whose record is inactive. -/
theorem c10_uptime_zero_missing_or_inactive (t : Tracker) (port now : Int) :
    (lookupKey t.history port = none → t.getUptime port now = 0) ∧
    ∀ h, lookupKey t.history port = some h → h.isActive = false →
      t.getUptime port now = 0 := by
  unfold Tracker.getUptime
  constructor
  · intro hl
    rw [hl]
  · intro h hl ha
    rw [hl]
    simp [ha]

/-- C10 witness: zero uptime for the unknown port 9 and for the inactive
port 2 of the sample tracker. -/
theorem c10_uptime_zero_missing_or_inactive_witness :
    sampleTracker.getUptime 9 5 = 0 ∧ sampleTracker.getUptime 2 5 = 0 :=
  ⟨(c10_uptime_zero_missing_or_inactive sampleTracker 9 5).1 (by decide),
   (c10_uptime_zero_missing_or_inactive sampleTracker 2 5).2 inactiveRecord
     (by decide) (by decide)⟩

/-- C6 counterexample: with duplicate observations for port 80 (pid 1 first,
pid 2 second) in one cycle, the resulting record carries pid 2 — the lookup
kept the last observation, not the first as the claim states. -/
theorem c6_first_wins_counterexample :
    (lookupKey ((NewTracker 10 10).update [obs 80 1 "a", obs 80 2 "b"] 0).history 80).map
      PortHistory.pid = some 2 ∧
    (lookupKey ((NewTracker 10 10).update [obs 80 1 "a", obs 80 2 "b"] 0).history 80).map
      PortHistory.pid ≠ some 1 :=
  ⟨by decide, by decide⟩

/-- C6 (amended): the per-port lookup built by a cycle keeps the last
observation carrying a given port number, and the earlier duplicates have no
effect on the resulting state or emitted events. -/
theorem c6_last_duplicate_wins (o1 o2 : PortInfo) (ps : List PortInfo) (t : Tracker)
    (now : Int) (hp : o1.port = o2.port) :
    t.update (o1 :: o2 :: ps) now = t.update (o2 :: ps) now := by
  have hm : (o1 :: o2 :: ps).foldl (fun m p => mapInsert m p.port p)
        ([] : List (Int × PortInfo)) =
      (o2 :: ps).foldl (fun m p => mapInsert m p.port p) [] := by
    simp only [List.foldl_cons]
    congr 1
    simp [mapInsert, lookupKey, setKey, hp]
  unfold Tracker.update
  dsimp only
  rw [hm]

/-- C6 witness: dropping the earlier duplicate for port 80 leaves the cycle's
result unchanged. -/
theorem c6_last_duplicate_wins_witness :
    (NewTracker 10 10).update [obs 80 1 "a", obs 80 2 "b"] 0 =
      (NewTracker 10 10).update [obs 80 2 "b"] 0 :=
  c6_last_duplicate_wins (obs 80 1 "a") (obs 80 2 "b") [] (NewTracker 10 10) 0 rfl

/-- C7 counterexample: an observation with port 0 (hence `port <= 0`) is not
excluded by the reconciliation cycle: it creates a history record and emits an
`Opened` event. -/
theorem c7_silent_skip_counterexample :
    ((NewTracker 10 10).update [obs 0 7 "p"] 5).history.length = 1 ∧
    (lookupKey ((NewTracker 10 10).update [obs 0 7 "p"] 5).history 0).isSome = true ∧
    ((NewTracker 10 10).update [obs 0 7 "p"] 5).events.length = 1 :=
  ⟨by decide, by decide, by decide⟩

/-- C7 (amended): a malformed observation with `port <= 0` is not excluded:
the cycle processes it like any other observation (a record is created with an
`Opened` event and the port appears in the store), the cycle does not fail,
and a valid observation in the same cycle is still processed normally. -/
theorem c7_nonpositive_not_excluded (o v : PortInfo) (now : Int)
    (ho : o.port ≤ 0) (hv : 0 < v.port) :
    ((NewTracker 10 10).update [o, v] now).history.map Prod.fst = [o.port, v.port] ∧
    (lookupKey ((NewTracker 10 10).update [o, v] now).history o.port).map
      PortHistory.isActive = some true ∧
    (lookupKey ((NewTracker 10 10).update [o, v] now).history o.port).map
      PortHistory.openCount = some 1 ∧
    (lookupKey ((NewTracker 10 10).update [o, v] now).history v.port).map
      PortHistory.isActive = some true ∧
    (lookupKey ((NewTracker 10 10).update [o, v] now).history v.port).map
      PortHistory.openCount = some 1 ∧
    ((NewTracker 10 10).update [o, v] now).events.length = 2 := by
  have hne : o.port ≠ v.port := by omega
  have hpm : [o, v].foldl (fun m p => mapInsert m p.port p)
      ([] : List (Int × PortInfo)) = [(o.port, o), (v.port, v)] := by
    simp [mapInsert, lookupKey, setKey, hne]
  have h1 : List.foldl (Tracker.stepOpen now) (NewTracker 10 10) [(o.port, o), (v.port, v)] =
      { history := [(o.port, ⟨o.port, o.pid, o.process, now, now, true, 1,
          [⟨o.port, o.pid, o.process, EventType.opened, now⟩]⟩),
          (v.port, ⟨v.port, v.pid, v.process, now, now, true, 1,
          [⟨v.port, v.pid, v.process, EventType.opened, now⟩]⟩)]
        events := [⟨o.port, o.pid, o.process, EventType.opened, now⟩,
          ⟨v.port, v.pid, v.process, EventType.opened, now⟩]
        maxEvents := 10
        maxHistories := 10 } := by
    simp [Tracker.stepOpen, Tracker.addEvent, mapInsert, setKey, lookupKey, NewTracker, hne]
  have h2 : (NewTracker 10 10).update [o, v] now =
      { history := [(o.port, ⟨o.port, o.pid, o.process, now, now, true, 1,
          [⟨o.port, o.pid, o.process, EventType.opened, now⟩]⟩),
          (v.port, ⟨v.port, v.pid, v.process, now, now, true, 1,
          [⟨v.port, v.pid, v.process, EventType.opened, now⟩]⟩)]
        events := [⟨o.port, o.pid, o.process, EventType.opened, now⟩,
          ⟨v.port, v.pid, v.process, EventType.opened, now⟩]
        maxEvents := 10
        maxHistories := 10 } := by
    unfold Tracker.update
    dsimp only
    rw [hpm, h1]
    simp [Tracker.stepClose, Tracker.cleanup, lookupKey, hne]
  rw [h2]
  simp [lookupKey, hne]

/-- C7 witness: the amended behavior at port 0 next to valid port 80. -/
theorem c7_nonpositive_not_excluded_witness :
    ((NewTracker 10 10).update [obs 0 7 "p", obs 80 1 "v"] 5).history.map Prod.fst =
      [0, 80] ∧
    (lookupKey ((NewTracker 10 10).update [obs 0 7 "p", obs 80 1 "v"] 5).history 0).map
      PortHistory.isActive = some true ∧
    (lookupKey ((NewTracker 10 10).update [obs 0 7 "p", obs 80 1 "v"] 5).history 0).map
      PortHistory.openCount = some 1 ∧
    (lookupKey ((NewTracker 10 10).update [obs 0 7 "p", obs 80 1 "v"] 5).history 80).map
      PortHistory.isActive = some true ∧
    (lookupKey ((NewTracker 10 10).update [obs 0 7 "p", obs 80 1 "v"] 5).history 80).map
      PortHistory.openCount = some 1 ∧
    ((NewTracker 10 10).update [obs 0 7 "p", obs 80 1 "v"] 5).events.length = 2 :=
  c7_nonpositive_not_excluded (obs 0 7 "p") (obs 80 1 "v") 5 (by decide) (by decide)

/-- C8 counterexample: port 80 is created with pid 1 / process "a" and then
observed again while active with pid 2 / process "b"; the record still carries
pid 1 and process "a" — `pid`/`processName` are not updated to the newest
observation's values as the claim states. -/
theorem c8_pid_not_updated_counterexample :
    (lookupKey (((NewTracker 10 10).update [obs 80 1 "a"] 1).update
      [obs 80 2 "b"] 2).history 80).map PortHistory.pid = some 1 ∧
    (lookupKey (((NewTracker 10 10).update [obs 80 1 "a"] 1).update
      [obs 80 2 "b"] 2).history 80).map PortHistory.pid ≠ some 2 ∧
    (lookupKey (((NewTracker 10 10).update [obs 80 1 "a"] 1).update
      [obs 80 2 "b"] 2).history 80).map PortHistory.process = some "a" :=
  ⟨by decide, by decide, by decide⟩

/-- C8 (amended): for a port already present and active that appears again,
the cycle sets `lastSeen` to `now` and emits no event; `pid` and
`processName` are left unchanged (they keep their creation-time values), for
arbitrary newest observation values. -/
theorem c8_active_reappearance_lastSeen_only (pid1 pid2 : Int) (pr1 pr2 : String)
    (n1 n2 : Int) :
    lookupKey (((NewTracker 10 10).update [obs 80 pid1 pr1] n1).update
        [obs 80 pid2 pr2] n2).history 80 =
      some ⟨80, pid1, pr1, n1, n2, true, 1, [⟨80, pid1, pr1, EventType.opened, n1⟩]⟩ ∧
    (((NewTracker 10 10).update [obs 80 pid1 pr1] n1).update
        [obs 80 pid2 pr2] n2).events =
      [⟨80, pid1, pr1, EventType.opened, n1⟩] := by
  have h1 : (NewTracker 10 10).update [obs 80 pid1 pr1] n1 =
      { history := [(80, ⟨80, pid1, pr1, n1, n1, true, 1,
          [⟨80, pid1, pr1, EventType.opened, n1⟩]⟩)]
        events := [⟨80, pid1, pr1, EventType.opened, n1⟩]
        maxEvents := 10
        maxHistories := 10 } := by
    unfold Tracker.update
    dsimp only
    simp [Tracker.stepOpen, Tracker.stepClose, Tracker.cleanup, Tracker.addEvent,
      mapInsert, setKey, lookupKey, NewTracker, obs]
  rw [h1]
  have h2 : Tracker.update
      { history := [(80, ⟨80, pid1, pr1, n1, n1, true, 1,
          [⟨80, pid1, pr1, EventType.opened, n1⟩]⟩)]
        events := [⟨80, pid1, pr1, EventType.opened, n1⟩]
        maxEvents := 10
        maxHistories := 10 } [obs 80 pid2 pr2] n2 =
      { history := [(80, ⟨80, pid1, pr1, n1, n2, true, 1,
          [⟨80, pid1, pr1, EventType.opened, n1⟩]⟩)]
        events := [⟨80, pid1, pr1, EventType.opened, n1⟩]
        maxEvents := 10
        maxHistories := 10 } := by
    unfold Tracker.update
    dsimp only
    simp [Tracker.stepOpen, Tracker.stepClose, Tracker.cleanup, Tracker.addEvent,
      mapInsert, setKey, lookupKey, obs]
  rw [h2]
  simp [lookupKey]

/-- C9: sorting by process name descending is not stable and jitters: from
insertion order `nginx(80), sshd(22), nginx(443)` the sort yields
`sshd, nginx(443), nginx(80)` — the tied nginx entries leave insertion
order — and sorting that result again (as every re-render does, in place)
flips the tied entries to `sshd, nginx(80), nginx(443)`. -/
theorem c9_descending_sort_unstable :
    sortPorts SortColumn.byProcess false
        [obs 80 1 "nginx", obs 22 2 "sshd", obs 443 3 "nginx"] =
      [obs 22 2 "sshd", obs 443 3 "nginx", obs 80 1 "nginx"] ∧
    sortPorts SortColumn.byProcess false
        [obs 22 2 "sshd", obs 443 3 "nginx", obs 80 1 "nginx"] =
      [obs 22 2 "sshd", obs 80 1 "nginx", obs 443 3 "nginx"] ∧
    sortPorts SortColumn.byProcess false
        [obs 22 2 "sshd", obs 443 3 "nginx", obs 80 1 "nginx"] ≠
      [obs 22 2 "sshd", obs 443 3 "nginx", obs 80 1 "nginx"] :=
  ⟨by decide, by decide, by decide⟩

/-! ### Lemmas about the eviction pass -/

theorem insertRev_perm {α : Type} (less : α → α → Bool) (x : α) (l : List α) :
    List.Perm (insertRev less x l) (x :: l) := by
  induction l with
  | nil => exact List.Perm.refl _
  | cons y ys ih =>
    unfold insertRev
    split
    · exact List.Perm.trans (List.Perm.cons y ih) (List.Perm.swap x y ys)
    · exact List.Perm.refl _

theorem foldl_insertRev_perm {α : Type} (less : α → α → Bool) (l : List α) :
    ∀ acc : List α,
      List.Perm (l.foldl (fun a x => insertRev less x a) acc) (l ++ acc) := by
  induction l with
  | nil => intro acc; exact List.Perm.refl _
  | cons x xs ih =>
    intro acc
    simp only [List.foldl_cons, List.cons_append]
    exact List.Perm.trans (ih (insertRev less x acc))
      (List.Perm.trans (List.Perm.append_left xs (insertRev_perm less x acc))
        List.perm_middle)

theorem sortSlice_perm {α : Type} (less : α → α → Bool) (l : List α) :
    List.Perm (sortSlice less l) l := by
  unfold sortSlice
  refine List.Perm.trans (List.reverse_perm _) ?_
  have h := foldl_insertRev_perm less l []
  simpa using h

theorem mem_removeKeys {α : Type} (ks : List Int) (s : List (Int × α)) (e : Int × α) :
    e ∈ removeKeys s ks ↔ e ∈ s ∧ e.1 ∉ ks := by
  induction ks generalizing s with
  | nil => simp [removeKeys]
  | cons k ks ih =>
    simp only [removeKeys, List.foldl_cons] at ih ⊢
    rw [ih]
    simp only [List.mem_filter, decide_eq_true_eq, List.mem_cons]
    tauto

theorem length_filter_ne {α : Type} (s : List (Int × α)) (k : Int)
    (hnd : (s.map Prod.fst).Nodup) (hk : k ∈ s.map Prod.fst) :
    (s.filter fun e => decide (e.1 ≠ k)).length = s.length - 1 := by
  induction s with
  | nil => simp at hk
  | cons e rest ih =>
    simp only [List.map_cons, List.nodup_cons] at hnd
    by_cases he : e.1 = k
    · have hall : rest.filter (fun x => decide (x.1 ≠ k)) = rest := by
        apply List.filter_eq_self.mpr
        intro x hx
        simp only [decide_eq_true_eq]
        intro hxk
        exact hnd.1 (he ▸ hxk ▸ List.mem_map_of_mem Prod.fst hx)
      have hpe : (decide (e.1 ≠ k)) = false := by simp [he]
      rw [List.filter_cons, hpe, hall]
      simp
    · have hk' : k ∈ rest.map Prod.fst := by
        rcases List.mem_cons.mp hk with h | h
        · exact absurd h.symm he
        · exact h
      have hpos : 1 ≤ rest.length := by
        rcases List.mem_map.mp hk' with ⟨x, hx, _⟩
        exact List.length_pos.mpr (List.ne_nil_of_mem hx)
      have hrec := ih hnd.2 hk'
      have hpe : (decide (e.1 ≠ k)) = true := by simp [he]
      rw [List.filter_cons, hpe]
      simp only [if_true, List.length_cons, hrec]
      omega

theorem removeKeys_length {α : Type} (ks : List Int) (s : List (Int × α))
    (hks : ks.Nodup) (hnd : (s.map Prod.fst).Nodup)
    (hmem : ∀ k ∈ ks, k ∈ s.map Prod.fst) :
    (removeKeys s ks).length = s.length - ks.length := by
  induction ks generalizing s with
  | nil => simp [removeKeys]
  | cons k ks ih =>
    simp only [removeKeys, List.foldl_cons] at ih ⊢
    have h1 : (s.filter fun e => decide (e.1 ≠ k)).length = s.length - 1 :=
      length_filter_ne s k hnd (hmem k (by simp))
    have h2 : ((s.filter fun e => decide (e.1 ≠ k)).map Prod.fst).Nodup :=
      ((List.filter_sublist s).map Prod.fst).nodup hnd
    have h3 : ∀ k' ∈ ks, k' ∈ (s.filter fun e => decide (e.1 ≠ k)).map Prod.fst := by
      intro k' hk'
      have hne : k' ≠ k := by
        rintro rfl
        exact (List.nodup_cons.mp hks).1 hk'
      rcases List.mem_map.mp (hmem k' (by simp [hk'])) with ⟨e, he, hek⟩
      exact List.mem_map.mpr
        ⟨e, List.mem_filter.mpr ⟨he, by simp [hek, hne]⟩, hek⟩
    rw [ih _ (List.nodup_cons.mp hks).2 h2 h3, h1]
    simp only [List.length_cons]
    omega

/-- C2: the eviction pass removes only inactive records: every history entry
with `isActive == true` at eviction time is still present, unchanged, after
`cleanup` (the store's keys being unique, as a Go map guarantees). -/
theorem c2_cleanup_preserves_active (t : Tracker)
    (hnd : (t.history.map Prod.fst).Nodup) (e : Int × PortHistory)
    (he : e ∈ t.history) (hact : e.2.isActive = true) :
    e ∈ t.cleanup.history := by
  unfold Tracker.cleanup
  dsimp only
  split
  · exact he
  next hgt =>
    rw [mem_removeKeys]
    refine ⟨he, ?_⟩
    intro hv
    have h1 : e.1 ∈ (sortSlice (fun a b => decide (a.2.lastSeen < b.2.lastSeen))
        (t.history.filter fun x => !x.2.isActive)).map Prod.fst :=
      List.take_subset _ _ hv
    have h2 : e.1 ∈ (t.history.filter fun x => !x.2.isActive).map Prod.fst :=
      (((sortSlice_perm _ _).map Prod.fst).mem_iff).mp h1
    rcases List.mem_map.mp h2 with ⟨f, hf, hkey⟩
    have hfm : f ∈ t.history := (List.mem_filter.mp hf).1
    have hinact : f.2.isActive = false := by
      have := (List.mem_filter.mp hf).2
      simpa using this
    have hef : e = f := List.inj_on_of_nodup_map hnd he hfm hkey.symm
    rw [hef, hinact] at hact
    exact Bool.false_ne_true hact

/-- C2 witness: the active record of the over-cap sample tracker survives
eviction. -/
theorem c2_cleanup_preserves_active_witness :
    (1, activeRecord) ∈ sampleTracker.cleanup.history :=
  c2_cleanup_preserves_active sampleTracker (by decide) (1, activeRecord)
    (by decide) (by decide)

/-- C3: after the eviction pass the store holds at most `maxHistories`
records, except that it may exceed the cap only when every remaining record
is active (the pass removes inactive records, oldest `lastSeen` first, until
the cap is met or no inactive records remain). -/
theorem c3_cleanup_cap_or_all_active (t : Tracker)
    (hnd : (t.history.map Prod.fst).Nodup) :
    t.cleanup.history.length ≤ t.maxHistories ∨
      ∀ e ∈ t.cleanup.history, e.2.isActive = true := by
  unfold Tracker.cleanup
  dsimp only
  split
  next hle => exact Or.inl hle
  next hgt =>
    have hperm := sortSlice_perm (fun a b : Int × PortHistory =>
      decide (a.2.lastSeen < b.2.lastSeen)) (t.history.filter fun x => !x.2.isActive)
    have hkeysperm := hperm.map Prod.fst
    have hsubkeys : ∀ k ∈ ((sortSlice (fun a b => decide (a.2.lastSeen < b.2.lastSeen))
          (t.history.filter fun x => !x.2.isActive)).map Prod.fst).take
          (t.history.length - t.maxHistories),
        k ∈ t.history.map Prod.fst := by
      intro k hk
      have h1 := List.take_subset _ _ hk
      have h2 := hkeysperm.mem_iff.mp h1
      rcases List.mem_map.mp h2 with ⟨f, hf, hkey⟩
      exact hkey ▸ List.mem_map_of_mem Prod.fst (List.mem_filter.mp hf).1
    have hndvict : (((sortSlice (fun a b => decide (a.2.lastSeen < b.2.lastSeen))
          (t.history.filter fun x => !x.2.isActive)).map Prod.fst).take
          (t.history.length - t.maxHistories)).Nodup := by
      have hfil : ((t.history.filter fun x => !x.2.isActive).map Prod.fst).Nodup :=
        ((List.filter_sublist t.history).map Prod.fst).nodup hnd
      have hsor : ((sortSlice (fun a b => decide (a.2.lastSeen < b.2.lastSeen))
          (t.history.filter fun x => !x.2.isActive)).map Prod.fst).Nodup :=
        hkeysperm.nodup_iff.mpr hfil
      exact (List.take_sublist _ _).nodup hsor
    by_cases hc : t.history.length - t.maxHistories ≤
        (t.history.filter fun x => !x.2.isActive).length
    · left
      have hlen : (((sortSlice (fun a b => decide (a.2.lastSeen < b.2.lastSeen))
            (t.history.filter fun x => !x.2.isActive)).map Prod.fst).take
            (t.history.length - t.maxHistories)).length =
          t.history.length - t.maxHistories := by
        rw [List.length_take, List.length_map, hperm.length_eq]
        omega
      rw [removeKeys_length _ _ hndvict hnd hsubkeys, hlen]
      omega
    · right
      intro e he
      rw [mem_removeKeys] at he
      by_contra hact
      have hact' : e.2.isActive = false := by
        cases hb : e.2.isActive
        · rfl
        · exact absurd hb hact
      have hmemf : e ∈ t.history.filter fun x => !x.2.isActive :=
        List.mem_filter.mpr ⟨he.1, by simp [hact']⟩
      have h1 : e.1 ∈ (sortSlice (fun a b => decide (a.2.lastSeen < b.2.lastSeen))
          (t.history.filter fun x => !x.2.isActive)).map Prod.fst :=
        hkeysperm.mem_iff.mpr (List.mem_map_of_mem Prod.fst hmemf)
      have htake : ((sortSlice (fun a b => decide (a.2.lastSeen < b.2.lastSeen))
            (t.history.filter fun x => !x.2.isActive)).map Prod.fst).take
            (t.history.length - t.maxHistories) =
          (sortSlice (fun a b => decide (a.2.lastSeen < b.2.lastSeen))
            (t.history.filter fun x => !x.2.isActive)).map Prod.fst := by
        apply List.take_of_length_le
        rw [List.length_map, hperm.length_eq]
        omega
      rw [htake] at he
      exact he.2 h1

/-- C3 witness: the bound at the over-cap sample tracker. -/
theorem c3_cleanup_cap_or_all_active_witness :
    sampleTracker.cleanup.history.length ≤ sampleTracker.maxHistories ∨
      ∀ e ∈ sampleTracker.cleanup.history, e.2.isActive = true :=
  c3_cleanup_cap_or_all_active sampleTracker (by decide)

/-- C5: starting from an empty store (the application's capacities 1000/500),
a port observed in cycle 1, absent in cycle 2 and observed again in cycle 3
ends with exactly two `Opened` events and one `Closed` event in its record,
`openCount == 2`, `isActive == true`, and `firstSeen` still the cycle-1
timestamp. -/
theorem c5_reopen_two_opened_one_closed (port pid1 pid2 : Int) (pr1 pr2 : String)
    (n1 n2 n3 : Int) :
    ∃ h, lookupKey ((((NewTracker 1000 500).update [obs port pid1 pr1] n1).update
        [] n2).update [obs port pid2 pr2] n3).history port = some h ∧
      (h.events.filter fun e => decide (e.eventType = EventType.opened)).length = 2 ∧
      (h.events.filter fun e => decide (e.eventType = EventType.closed)).length = 1 ∧
      h.openCount = 2 ∧ h.isActive = true ∧ h.firstSeen = n1 := by
  have h1 : (NewTracker 1000 500).update [obs port pid1 pr1] n1 =
      { history := [(port, ⟨port, pid1, pr1, n1, n1, true, 1,
          [⟨port, pid1, pr1, EventType.opened, n1⟩]⟩)]
        events := [⟨port, pid1, pr1, EventType.opened, n1⟩]
        maxEvents := 1000
        maxHistories := 500 } := by
    unfold Tracker.update
    dsimp only
    simp [Tracker.stepOpen, Tracker.stepClose, Tracker.cleanup, Tracker.addEvent,
      mapInsert, setKey, lookupKey, NewTracker, obs]
  have h2 : Tracker.update
      { history := [(port, ⟨port, pid1, pr1, n1, n1, true, 1,
          [⟨port, pid1, pr1, EventType.opened, n1⟩]⟩)]
        events := [⟨port, pid1, pr1, EventType.opened, n1⟩]
        maxEvents := 1000
        maxHistories := 500 } [] n2 =
      { history := [(port, ⟨port, pid1, pr1, n1, n2, false, 1,
          [⟨port, pid1, pr1, EventType.opened, n1⟩,
           ⟨port, pid1, pr1, EventType.closed, n2⟩]⟩)]
        events := [⟨port, pid1, pr1, EventType.opened, n1⟩,
          ⟨port, pid1, pr1, EventType.closed, n2⟩]
        maxEvents := 1000
        maxHistories := 500 } := by
    unfold Tracker.update
    dsimp only
    simp [Tracker.stepOpen, Tracker.stepClose, Tracker.cleanup, Tracker.addEvent,
      mapInsert, setKey, lookupKey]
  have h3 : Tracker.update
      { history := [(port, ⟨port, pid1, pr1, n1, n2, false, 1,
          [⟨port, pid1, pr1, EventType.opened, n1⟩,
           ⟨port, pid1, pr1, EventType.closed, n2⟩]⟩)]
        events := [⟨port, pid1, pr1, EventType.opened, n1⟩,
          ⟨port, pid1, pr1, EventType.closed, n2⟩]
        maxEvents := 1000
        maxHistories := 500 } [obs port pid2 pr2] n3 =
      { history := [(port, ⟨port, pid1, pr1, n1, n3, true, 2,
          [⟨port, pid1, pr1, EventType.opened, n1⟩,
           ⟨port, pid1, pr1, EventType.closed, n2⟩,
           ⟨port, pid2, pr2, EventType.opened, n3⟩]⟩)]
        events := [⟨port, pid1, pr1, EventType.opened, n1⟩,
          ⟨port, pid1, pr1, EventType.closed, n2⟩,
          ⟨port, pid2, pr2, EventType.opened, n3⟩]
        maxEvents := 1000
        maxHistories := 500 } := by
    unfold Tracker.update
    dsimp only
    simp [Tracker.stepOpen, Tracker.stepClose, Tracker.cleanup, Tracker.addEvent,
      mapInsert, setKey, lookupKey, obs]
  refine ⟨⟨port, pid1, pr1, n1, n3, true, 2,
      [⟨port, pid1, pr1, EventType.opened, n1⟩,
       ⟨port, pid1, pr1, EventType.closed, n2⟩,
       ⟨port, pid2, pr2, EventType.opened, n3⟩]⟩, ?_, ?_, ?_, rfl, rfl, rfl⟩
  · rw [h1, h2, h3]
    simp [lookupKey]
  · simp [List.filter]
  · simp [List.filter]

end Gaze
